import Mathlib

/-!
# Verification of the iptv-portal streaming-proxy core

Shallow embedding of the manifest-rewriting and failover-streaming core of
the iptv-portal repository (`src/proxy-server.py` and
`src/enhanced-proxy-server.py`), together with theorems checking the
natural-language specification against it.

Python strings are modelled as Lean `String`/`List Char`; SQLite rows of the
`channel_sources` table as a Lean structure, the table as a `List`; SQL
`FLOAT` response times and timestamps as exact rationals (`Rat`); the file
system and the network as explicit oracle arguments.
-/

namespace IptvPortal

/-! ## Python string primitives used by the proxy

Each helper models the exact Python builtin the source calls. -/

/-- Whitespace characters stripped by Python `str.strip()` (the ASCII ones;
the manifests processed by the proxy are ASCII text). -/
def pyIsSpace (c : Char) : Bool :=
  c = ' ' || c = '\t' || c = '\n' || c = '\x0d' || c = Char.ofNat 0x0b || c = Char.ofNat 0x0c

/-- Python `str.strip()`: remove leading and trailing whitespace. -/
def pyStrip (s : String) : String :=
  ⟨((s.data.dropWhile pyIsSpace).reverse.dropWhile pyIsSpace).reverse⟩

/-- Python `pat in hay` substring test. -/
def pyContains (hay pat : String) : Bool :=
  decide (pat.data <:+: hay.data)

/-- Python `s.endswith(suf)`. -/
def pyEndsWith (s suf : String) : Bool :=
  suf.data.isSuffixOf s.data

/-- Python `s.startswith(pre)`. -/
def pyStartsWith (s pre : String) : Bool :=
  pre.data.isPrefixOf s.data

/-- Python `s.lower()` (ASCII case folding; the host names the proxy
matches against are ASCII). -/
def pyLower (s : String) : String :=
  ⟨s.data.map Char.toLower⟩

/-- Characters that may terminate a line for Python `str.splitlines()`. -/
def pyIsLineBoundary (c : Char) : Bool :=
  c = '\n' || c = '\x0d' || c = Char.ofNat 0x0b || c = Char.ofNat 0x0c ||
  c = Char.ofNat 0x1c || c = Char.ofNat 0x1d || c = Char.ofNat 0x1e ||
  c = Char.ofNat 0x85 || c = Char.ofNat 0x2028 || c = Char.ofNat 0x2029

/-- Worker for `pySplitlines`; `acc` holds the current line reversed. -/
def pySplitlinesAux : List Char → List Char → List String
  | [], acc => if acc.isEmpty then [] else [⟨acc.reverse⟩]
  | '\x0d' :: '\n' :: rest, acc => ⟨acc.reverse⟩ :: pySplitlinesAux rest []
  | c :: rest, acc =>
    if pyIsLineBoundary c then ⟨acc.reverse⟩ :: pySplitlinesAux rest []
    else pySplitlinesAux rest (c :: acc)

/-- Python `str.splitlines()`: split at line boundaries, no trailing empty
line for a trailing newline. -/
def pySplitlines (s : String) : List String :=
  pySplitlinesAux s.data []

/-- `source_url.rsplit('/', 1)[0] + '/'`: everything up to and including the
last `/`; if the string has no `/` at all, `rsplit` returns the whole string
and the code appends `/`. -/
def pyRsplitBase (s : String) : String :=
  if s.data.contains '/' then ⟨(s.data.reverse.dropWhile (· ≠ '/')).reverse⟩
  else s ++ "/"

/-! ## `urllib.parse` primitives -/

/-- Characters allowed in a URL scheme after the first letter. -/
def isSchemeChar (c : Char) : Bool :=
  c.isAlphanum || c = '+' || c = '-' || c = '.'

/-- `urlparse(u).scheme` and the remainder of the URL after the `:`.
Python recognises a scheme when a `:` is preceded by a non-empty run of
scheme characters beginning with a letter, and lowercases it. -/
def urlSplitScheme (u : String) : String × String :=
  let pre := u.data.takeWhile (· ≠ ':')
  if pre.length < u.data.length ∧ pre ≠ [] ∧
      (pre.headD 'a').isAlpha ∧ pre.all isSchemeChar then
    (pyLower ⟨pre⟩, ⟨u.data.drop (pre.length + 1)⟩)
  else ("", u)

/-- `urlparse(u).scheme`. -/
def urlScheme (u : String) : String := (urlSplitScheme u).1

/-- `urlparse(u).netloc`: when the remainder after the scheme starts with
`//`, the host part up to the first `/`, `?` or `#`. -/
def urlNetloc (u : String) : String :=
  let rest := (urlSplitScheme u).2
  if pyStartsWith rest "//" then
    ⟨(rest.data.drop 2).takeWhile (fun c => c ≠ '/' && c ≠ '?' && c ≠ '#')⟩
  else ""

/-- `urlparse(u).path`: what follows the netloc, up to the first `?` or `#`. -/
def urlPath (u : String) : String :=
  let rest := (urlSplitScheme u).2
  let afterNetloc :=
    if pyStartsWith rest "//" then
      (rest.data.drop 2).dropWhile (fun c => c ≠ '/' && c ≠ '?' && c ≠ '#')
    else rest.data
  ⟨afterNetloc.takeWhile (fun c => c ≠ '?' && c ≠ '#')⟩

/-- UTF-8 encoding of one character, as the list of its byte values. -/
def utf8Bytes (c : Char) : List Nat :=
  let n := c.toNat
  if n < 0x80 then [n]
  else if n < 0x800 then [0xc0 + n / 0x40, 0x80 + n % 0x40]
  else if n < 0x10000 then
    [0xe0 + n / 0x1000, 0x80 + (n / 0x40) % 0x40, 0x80 + n % 0x40]
  else
    [0xf0 + n / 0x40000, 0x80 + (n / 0x1000) % 0x40,
     0x80 + (n / 0x40) % 0x40, 0x80 + n % 0x40]

/-- Upper-case hexadecimal digit, as `urllib.parse.quote` produces. -/
def hexDigit (n : Nat) : Char :=
  if n < 10 then Char.ofNat (48 + n) else Char.ofNat (55 + n)

/-- Percent-encoding of one byte under `urllib.parse.quote` with the default
`safe='/'`: ASCII letters, digits, `_ . - ~` and `/` pass through, every
other byte becomes `%XX`. -/
def pyQuoteByte (b : Nat) : String :=
  let c := Char.ofNat b
  if (65 ≤ b ∧ b ≤ 90) ∨ (97 ≤ b ∧ b ≤ 122) ∨ (48 ≤ b ∧ b ≤ 57) ∨
      c = '_' ∨ c = '.' ∨ c = '-' ∨ c = '~' ∨ c = '/' then
    String.singleton c
  else
    "%" ++ String.singleton (hexDigit (b / 16)) ++ String.singleton (hexDigit (b % 16))

/-- `urllib.parse.quote(s)` (default `safe='/'`): percent-encode the UTF-8
bytes of `s`. -/
def pyQuote (s : String) : String :=
  String.join ((s.data.flatMap utf8Bytes).map pyQuoteByte)

/-! ## URL resolution and proxy-URL construction

Both rewriters resolve a reference found in a manifest against the manifest's
own source URL with the same three-way branch, and wrap the result in the
channel-scoped proxy segment endpoint. -/

/-- The `full_url` computation shared by `proxy_hls_manifest`,
`proxy_mpd_manifest` and the MPD regex fallback: references starting with
`http` pass through, references starting with `/` are resolved against the
source's scheme and netloc, everything else against the source URL's
directory (`source_url.rsplit('/', 1)[0] + '/'`). -/
def buildFullUrl (source_url segment_url : String) : String :=
  if ¬ pyStartsWith segment_url "http" then
    if pyStartsWith segment_url "/" then
      urlScheme source_url ++ "://" ++ urlNetloc source_url ++ segment_url
    else
      pyRsplitBase source_url ++ segment_url
  else segment_url

/-- `f"/proxy/segment/{channel_id}?url={quote(full_url)}"`. -/
def proxySegmentUrl (channel_id full_url : String) : String :=
  "/proxy/segment/" ++ channel_id ++ "?url=" ++ pyQuote full_url

/-! ## HLS manifest rewriter (`proxy_hls_manifest`, proxy-server.py)

The loop body over `content.splitlines()`: a line starting with `#` is kept;
otherwise, when `line.strip()` is non-empty, the stripped line is resolved
and replaced by the proxy segment URL; otherwise (a blank line) no line is
appended at all. -/

/-- One iteration of the `for line in lines` loop: `some` the emitted line,
`none` when nothing is appended. -/
def hlsProcessLine (channel_id source_url line : String) : Option String :=
  if pyStartsWith line "#" then some line
  else if pyStrip line ≠ "" then
    some (proxySegmentUrl channel_id (buildFullUrl source_url (pyStrip line)))
  else none

/-- The whole loop, producing `processed_lines`. -/
def proxy_hls_lines (channel_id source_url : String) (lines : List String) : List String :=
  lines.filterMap (hlsProcessLine channel_id source_url)

/-- `proxy_hls_manifest`'s text-to-text core:
`'\n'.join(processed_lines)` over `content.splitlines()`. -/
def proxy_hls_content (channel_id source_url content : String) : String :=
  String.intercalate "\n" (proxy_hls_lines channel_id source_url (pySplitlines content))

/-! ## Source registry (`channel_sources` table)

One row of the SQLite `channel_sources` table. `FLOAT` columns and
timestamps are modelled as exact rationals. -/

structure ChannelSource where
  channel_id : String
  url : String
  priority : Int
  is_active : Bool
  last_checked : Rat
  success_count : Nat
  fail_count : Nat
  avg_response_time : Rat
  deriving Repr, DecidableEq

/-- The `ORDER BY priority, avg_response_time` key of `get_best_source`'s
first query, as a total order on rows. -/
def srcKeyLE (a b : ChannelSource) : Prop :=
  a.priority < b.priority ∨
    (a.priority = b.priority ∧ a.avg_response_time ≤ b.avg_response_time)

instance (a b : ChannelSource) : Decidable (srcKeyLE a b) := by
  unfold srcKeyLE; infer_instance

/-- The `ORDER BY priority` key of the fallback query. -/
def srcPrioLE (a b : ChannelSource) : Prop :=
  a.priority ≤ b.priority

instance (a b : ChannelSource) : Decidable (srcPrioLE a b) := by
  unfold srcPrioLE; infer_instance

/-- `SELECT ... ORDER BY key LIMIT 1` over a row list: an element that is
`le`-minimal (the earliest such element, which is one of the rows SQLite may
return; every theorem about it only uses minimality). -/
def firstMin (le : α → α → Prop) [DecidableRel le] : List α → Option α
  | [] => none
  | x :: xs =>
    match firstMin le xs with
    | none => some x
    | some y => if le x y then some x else some y

/-- `get_best_source(channel_id)`: the active row with the least
`(priority, avg_response_time)`; if none, any-activity fallback ordered by
`priority` alone; `None` when the channel has no rows. -/
def get_best_source (db : List ChannelSource) (channel_id : String) : Option String :=
  let actives := db.filter (fun r => r.channel_id == channel_id && r.is_active)
  match firstMin srcKeyLE actives with
  | some r => some r.url
  | none =>
    (firstMin srcPrioLE (db.filter (fun r => r.channel_id == channel_id))).map
      (fun r => r.url)

/-- `update_source_status(channel_id, url, success, response_time)`: the SQL
`UPDATE ... WHERE channel_id = ? AND url = ?`, with `CURRENT_TIMESTAMP`
passed in as `now`. On success: reactivate, bump `success_count`, fold the
elapsed time into the running mean using the pre-increment count (SQL `SET`
right-hand sides read the old row). On failure: deactivate and bump
`fail_count`. -/
def update_source_status (db : List ChannelSource) (channel_id url : String)
    (success : Bool) (response_time : Rat) (now : Rat) : List ChannelSource :=
  db.map fun r =>
    if r.channel_id = channel_id ∧ r.url = url then
      if success then
        { r with
          is_active := true
          last_checked := now
          success_count := r.success_count + 1
          avg_response_time :=
            (r.avg_response_time * (r.success_count : Rat) + response_time) /
              ((r.success_count : Rat) + 1) }
      else
        { r with
          is_active := false
          last_checked := now
          fail_count := r.fail_count + 1 }
    else r

/-! ## Cache validity (`is_cache_valid`) -/

/-- What `os.path` sees of a cache file: its modification time and size. -/
structure FileStat where
  mtime : Rat
  size : Nat
  deriving Repr, DecidableEq

/-- `CACHE_TTL = 3600`. -/
def CACHE_TTL : Rat := 3600

/-- `is_cache_valid(cache_path)`: the file system is passed in as
`none` (file absent) or `some` stat. Absent, older than `CACHE_TTL`
(`time.time() - getmtime > CACHE_TTL`), or smaller than 1024 bytes means
invalid. -/
def is_cache_valid (now : Rat) (stat : Option FileStat) : Bool :=
  match stat with
  | none => false
  | some st =>
    if now - st.mtime > CACHE_TTL then false
    else if st.size < 1024 then false
    else true

/-- Whether `proxy_stream`/`proxy_segment` serve from cache or fetch fresh:
the guard `if CACHE_ENABLED and is_cache_valid(cache_path)`. -/
inductive CacheDecision where
  | serveCache
  | fetchFresh
  deriving Repr, DecidableEq

/-- The cache-or-fetch branch of the streaming pipeline. -/
def cache_or_fetch (cache_enabled : Bool) (now : Rat) (stat : Option FileStat) :
    CacheDecision :=
  if cache_enabled && is_cache_valid now stat then .serveCache else .fetchFresh

/-! ## Fetch-retry client (`fetch_with_retry`) -/

/-- An upstream HTTP response: final status code (redirects already
followed by `allow_redirects=True`) and declared content type, if any. -/
structure HttpResponse where
  status : Nat
  contentType : Option String
  deriving Repr, DecidableEq

/-- What one `requests.get` attempt produces: a raised exception or a
response. -/
inductive AttemptResult where
  | exn
  | resp (r : HttpResponse)
  deriving Repr, DecidableEq

/-- The retry loop from attempt index `i`, with `fuel` attempts left; the
network is the oracle `net` giving each attempt's outcome. A 200 response is
returned at once; any other status or an exception falls through to the next
attempt; exhausting the loop returns `none` (Python `None`). -/
def fetchFrom (net : Nat → AttemptResult) : Nat → Nat → Option HttpResponse
  | _, 0 => none
  | i, fuel + 1 =>
    match net i with
    | .exn => fetchFrom net (i + 1) fuel
    | .resp r => if r.status = 200 then some r else fetchFrom net (i + 1) fuel

/-- `fetch_with_retry(url, ..., max_retries)`:
`for attempt in range(max_retries)` starting at attempt 0. -/
def fetch_with_retry (net : Nat → AttemptResult) (max_retries : Nat) :
    Option HttpResponse :=
  fetchFrom net 0 max_retries

/-! ## Stream type dispatcher (`proxy_stream`) -/

/-- Where `proxy_stream` routes a resolved source URL. -/
inductive StreamRoute where
  | hls
  | dash
  | media (contentType : String)
  deriving Repr, DecidableEq

/-- The content-type selection on the opaque-media path of `proxy_stream`:
the `if source_url.endswith(...)` chain, then the upstream `content-type`
header, then the `video/MP2T` default. -/
def mediaContentType (source_url : String) (upstream_ct : Option String) : String :=
  if pyEndsWith source_url ".m3u8" then "application/vnd.apple.mpegurl"
  else if pyEndsWith source_url ".mpd" then "application/dash+xml"
  else if pyEndsWith source_url ".flv" then "video/x-flv"
  else if pyEndsWith source_url ".mp4" then "video/mp4"
  else
    match upstream_ct with
    | some ct => ct
    | none => "video/MP2T"

/-- The dispatch in `proxy_stream`: `if source_url.endswith('.m3u8')` to the
HLS rewriter, `elif source_url.endswith('.mpd')` to the DASH rewriter, else
the cache-tee media path with the content type above. -/
def dispatch (source_url : String) (upstream_ct : Option String) : StreamRoute :=
  if pyEndsWith source_url ".m3u8" then .hls
  else if pyEndsWith source_url ".mpd" then .dash
  else .media (mediaContentType source_url upstream_ct)

/-! ## Token injection (enhanced-proxy-server.py) -/

/-- The "requires-token" origin family test:
`'mytvsuper' in url.lower() or 'mytv' in url.lower()`. -/
def mytvMatch (url : String) : Bool :=
  pyContains (pyLower url) "mytvsuper" || pyContains (pyLower url) "mytv"

/-- An outgoing fetch as the token-injection sites shape it: the final URL
and the caller-supplied `Authorization` header, if any (`fetch_with_retry`
adds only `User-Agent`/`Referer` defaults on top). -/
structure FetchRequest where
  url : String
  auth : Option String
  deriving Repr, DecidableEq

/-- The manifest-fetch token step of `proxy_mpd_manifest`: for a mytv URL
and a truthy token, append `?token=` when the URL has no `?`, else append
`&token=`; the subsequent `fetch_with_retry(source_url)` carries no
`Authorization` header. -/
def mpdManifestRequest (source_url token : String) : FetchRequest :=
  if mytvMatch source_url then
    if token ≠ "" ∧ ¬ pyContains source_url "?" then
      { url := source_url ++ "?token=" ++ token, auth := none }
    else if token ≠ "" then
      { url := source_url ++ "&token=" ++ token, auth := none }
    else { url := source_url, auth := none }
  else { url := source_url, auth := none }

/-- The segment-fetch token step of `proxy_segment` (enhanced server): same
URL augmentation, and `custom_headers = {'Authorization': f"Bearer {token}"}`
whenever the mytv family matches. -/
def segmentRequest (segment_url token : String) : FetchRequest :=
  if mytvMatch segment_url then
    if token ≠ "" ∧ ¬ pyContains segment_url "?" then
      { url := segment_url ++ "?token=" ++ token, auth := some ("Bearer " ++ token) }
    else if token ≠ "" ∧ pyContains segment_url "?" then
      { url := segment_url ++ "&token=" ++ token, auth := some ("Bearer " ++ token) }
    else { url := segment_url, auth := some ("Bearer " ++ token) }
  else { url := segment_url, auth := none }

/-! ## DASH manifest rewriter (`proxy_mpd_manifest`)

The primary path works on the `xml.etree.ElementTree` parse of the manifest;
we embed that tree directly (a mutual inductive, so that structural
recursion and induction stay elementary). `root.findall(".//*[@sourceURL]")`
selects the *descendants* of the root carrying a `sourceURL` attribute — the
root element itself is not in the result set. -/

mutual
inductive XmlNode where
  | elem (tag : String) (attrs : List (String × String)) (children : XmlForest)
  deriving DecidableEq
inductive XmlForest where
  | nil
  | cons (head : XmlNode) (tail : XmlForest)
  deriving DecidableEq
end

/-- `element.set("sourceURL", proxy_url)` after
`original_url = element.get("sourceURL")`: rewrite the value of each
`sourceURL` attribute of one element, leaving other attributes alone. -/
def rewriteAttrs (channel_id source_url : String)
    (attrs : List (String × String)) : List (String × String) :=
  attrs.map fun p =>
    if p.1 = "sourceURL" then
      (p.1, proxySegmentUrl channel_id (buildFullUrl source_url p.2))
    else p

mutual
/-- Rewrite `sourceURL` on this element and every element below it. -/
def rewriteNode (channel_id source_url : String) : XmlNode → XmlNode
  | .elem t a c =>
    .elem t (rewriteAttrs channel_id source_url a) (rewriteForest channel_id source_url c)
/-- Rewrite a list of sibling elements. -/
def rewriteForest (channel_id source_url : String) : XmlForest → XmlForest
  | .nil => .nil
  | .cons x xs =>
    .cons (rewriteNode channel_id source_url x) (rewriteForest channel_id source_url xs)
end

/-- The XML path of `proxy_mpd_manifest`: the loop over
`root.findall(".//*[@sourceURL]")` touches every descendant of the root but
not the root itself. -/
def proxy_mpd_rewrite (channel_id source_url : String) : XmlNode → XmlNode
  | .elem t a c => .elem t a (rewriteForest channel_id source_url c)

mutual
/-- Number of `sourceURL` attributes in a tree. -/
def countNode : XmlNode → Nat
  | .elem _ a c => (a.filter (fun p => p.1 == "sourceURL")).length + countForest c
/-- Number of `sourceURL` attributes in a forest. -/
def countForest : XmlForest → Nat
  | .nil => 0
  | .cons x xs => countNode x + countForest xs
end

mutual
/-- The values of all `sourceURL` attributes in a tree, in document order. -/
def valuesNode : XmlNode → List String
  | .elem _ a c =>
    ((a.filter (fun p => p.1 == "sourceURL")).map Prod.snd) ++ valuesForest c
/-- The values of all `sourceURL` attributes in a forest. -/
def valuesForest : XmlForest → List String
  | .nil => []
  | .cons x xs => valuesNode x ++ valuesForest xs
end

/-- The attribute list of the root element. -/
def rootAttrs : XmlNode → List (String × String)
  | .elem _ a _ => a

/-- The children of the root element. -/
def rootChildren : XmlNode → XmlForest
  | .elem _ _ c => c

/-! ### The regex fallback path

`re.sub(r'sourceURL="([^"]+)"', rewrite_url, content)`: a left-to-right
scan; at each position the literal `sourceURL="` must match, then a
non-empty run of non-quote characters, then a closing `"`. The replacement
is `match.group(0).replace(segment_url, proxy_url)` with
`segment_url = match.group(1).strip()` — Python `str.replace`, i.e. every
occurrence of the stripped reference inside the whole match is replaced. -/

/-- The literal head of the fallback pattern. -/
def sourceURLPat : List Char := "sourceURL=\"".data

/-- Python `str.replace` for a non-empty needle `p :: ps`. -/
def pyReplaceNE (p : Char) (ps rep : List Char) : List Char → List Char
  | [] => []
  | c :: rest =>
    if (p :: ps).isPrefixOf (c :: rest) then
      rep ++ pyReplaceNE p ps rep (rest.drop ps.length)
    else c :: pyReplaceNE p ps rep rest
termination_by s => s.length
decreasing_by
  all_goals simp_arith [List.length_drop]

/-- Python `str.replace(needle, rep)`; an empty needle splices `rep` before
every character and at the end, as Python does. -/
def pyReplace (s needle rep : List Char) : List Char :=
  match needle with
  | [] => rep ++ s.flatMap (fun c => c :: rep)
  | p :: ps => pyReplaceNE p ps rep s

/-- The replacement text `re.sub` emits for one match with group 1 `v`:
`rewrite_url` of the source. -/
def mpdFallbackRepl (channel_id source_url : String) (v : List Char) : List Char :=
  pyReplace (sourceURLPat ++ v ++ ['"'])
    (pyStrip ⟨v⟩).data
    (proxySegmentUrl channel_id (buildFullUrl source_url (pyStrip ⟨v⟩))).data

/-- The `re.sub` scan itself. -/
def mpdFallbackAux (channel_id source_url : String) : List Char → List Char
  | [] => []
  | c :: rest =>
    if sourceURLPat.isPrefixOf (c :: rest) then
      let after := (c :: rest).drop sourceURLPat.length
      let v := after.takeWhile (· ≠ '"')
      if v ≠ [] ∧ after.drop v.length ≠ [] then
        mpdFallbackRepl channel_id source_url v ++
          mpdFallbackAux channel_id source_url (after.drop (v.length + 1))
      else c :: mpdFallbackAux channel_id source_url rest
    else c :: mpdFallbackAux channel_id source_url rest
termination_by s => s.length
decreasing_by
  all_goals simp_arith [List.length_drop]

/-- The textual fallback path of `proxy_mpd_manifest`. -/
def proxy_mpd_fallback (channel_id source_url content : String) : String :=
  ⟨mpdFallbackAux channel_id source_url content.data⟩

/-- The `try/except` around `ET.fromstring`: the parse outcome is passed in
as `parsed`; well-formed XML takes the tree path, anything else degrades to
the textual fallback on the raw text — the request is still served. -/
def proxy_mpd_process (channel_id source_url : String)
    (parsed : Option XmlNode) (raw : String) : XmlNode ⊕ String :=
  match parsed with
  | some root => Sum.inl (proxy_mpd_rewrite channel_id source_url root)
  | none => Sum.inr (proxy_mpd_fallback channel_id source_url raw)

/-! ## Theorems -/

/-- C1 counterexample: on the playlist `"#EXTM3U\n\nseg1.ts"` the input has
three lines, one of them blank, but the rewriter's output has only two — the
blank line is dropped, not copied verbatim in its original position as the
claim states. -/
theorem hls_blank_line_dropped :
    pySplitlines "#EXTM3U\n\nseg1.ts" = ["#EXTM3U", "", "seg1.ts"] ∧
    proxy_hls_lines "ch" "https://h/dir/play.m3u8" ["#EXTM3U", "", "seg1.ts"] =
      ["#EXTM3U", "/proxy/segment/ch?url=https%3A//h/dir/seg1.ts"] ∧
    proxy_hls_content "ch" "https://h/dir/play.m3u8" "#EXTM3U\n\nseg1.ts" =
      "#EXTM3U\n/proxy/segment/ch?url=https%3A//h/dir/seg1.ts" := by
  refine ⟨by decide, by decide, by decide⟩

/-- C1 (amended): the HLS rewriter's output lines are exactly the input
lines that start with `#` or are non-blank, in their original order, with
each `#`-line copied verbatim and each non-blank non-`#` line replaced by
the channel's proxy segment URL for its resolved, percent-encoded absolute
URL; blank lines are dropped. -/
theorem hls_rewrite_spec (channel_id source_url : String) (lines : List String) :
    proxy_hls_lines channel_id source_url lines =
      (lines.filter fun l => pyStartsWith l "#" || pyStrip l != "").map
        fun l =>
          if pyStartsWith l "#" then l
          else proxySegmentUrl channel_id (buildFullUrl source_url (pyStrip l)) := by
  induction lines with
  | nil => rfl
  | cons l ls ih =>
    by_cases h1 : pyStartsWith l "#"
    · simp [proxy_hls_lines, hlsProcessLine, List.filter_cons, h1, ← ih]
    · by_cases h2 : pyStrip l = ""
      · simp [proxy_hls_lines, hlsProcessLine, List.filter_cons, h1, h2, ← ih]
      · simp [proxy_hls_lines, hlsProcessLine, List.filter_cons, h1, h2, ← ih]

/-- C3: resolution of manifest references against the source URL
`https://h/dir/sub/play.m3u8`, in `buildFullUrl` (shared by both rewriters)
and as used by the HLS line rewriter: a bare reference resolves against the
source's directory, a rooted reference against its scheme and host, and an
absolute reference passes through unchanged. -/
theorem url_resolution_spec :
    buildFullUrl "https://h/dir/sub/play.m3u8" "seg1.ts" = "https://h/dir/sub/seg1.ts" ∧
    buildFullUrl "https://h/dir/sub/play.m3u8" "/abs/seg1.ts" = "https://h/abs/seg1.ts" ∧
    buildFullUrl "https://h/dir/sub/play.m3u8" "https://other/seg1.ts" =
      "https://other/seg1.ts" ∧
    proxy_hls_lines "ch" "https://h/dir/sub/play.m3u8"
        ["seg1.ts", "/abs/seg1.ts", "https://other/seg1.ts"] =
      ["/proxy/segment/ch?url=https%3A//h/dir/sub/seg1.ts",
       "/proxy/segment/ch?url=https%3A//h/abs/seg1.ts",
       "/proxy/segment/ch?url=https%3A//other/seg1.ts"] := by
  refine ⟨by decide, by decide, by decide, by decide⟩

/-- C5: for an existing `(channel, url)` row, a success outcome reactivates
the row, increments `success_count` by exactly one and recomputes
`avg_response_time` as the running mean over the pre-increment count; a
failure outcome deactivates the row and increments `fail_count` by exactly
one. -/
theorem update_source_status_spec (db : List ChannelSource) (ch url : String)
    (rt now : Rat) (i : Nat) (r : ChannelSource)
    (hr : db[i]? = some r) (hc : r.channel_id = ch) (hu : r.url = url) :
    ((update_source_status db ch url true rt now)[i]?.map ChannelSource.is_active
        = some true) ∧
    ((update_source_status db ch url true rt now)[i]?.map ChannelSource.success_count
        = some (r.success_count + 1)) ∧
    ((update_source_status db ch url true rt now)[i]?.map ChannelSource.avg_response_time
        = some ((r.avg_response_time * (r.success_count : Rat) + rt) /
            ((r.success_count : Rat) + 1))) ∧
    ((update_source_status db ch url false rt now)[i]?.map ChannelSource.is_active
        = some false) ∧
    ((update_source_status db ch url false rt now)[i]?.map ChannelSource.fail_count
        = some (r.fail_count + 1)) := by
  simp [update_source_status, List.getElem?_map, hr, hc, hu]

/-- C5 witness: the running-mean update on a concrete row (success count 2,
mean 3, elapsed 9 gives mean (3·2+9)/3 = 5). -/
theorem update_source_status_spec_witness :
    ((update_source_status [⟨"x", "u1", 1, false, 0, 2, 4, 3⟩] "x" "u1" true 9 7)[0]?.map
        ChannelSource.is_active = some true) ∧
    ((update_source_status [⟨"x", "u1", 1, false, 0, 2, 4, 3⟩] "x" "u1" true 9 7)[0]?.map
        ChannelSource.success_count = some 3) ∧
    ((update_source_status [⟨"x", "u1", 1, false, 0, 2, 4, 3⟩] "x" "u1" true 9 7)[0]?.map
        ChannelSource.avg_response_time = some ((3 * (2 : Rat) + 9) / ((2 : Rat) + 1))) ∧
    ((update_source_status [⟨"x", "u1", 1, false, 0, 2, 4, 3⟩] "x" "u1" false 9 7)[0]?.map
        ChannelSource.is_active = some false) ∧
    ((update_source_status [⟨"x", "u1", 1, false, 0, 2, 4, 3⟩] "x" "u1" false 9 7)[0]?.map
        ChannelSource.fail_count = some 5) :=
  update_source_status_spec [⟨"x", "u1", 1, false, 0, 2, 4, 3⟩] "x" "u1" 9 7 0
    ⟨"x", "u1", 1, false, 0, 2, 4, 3⟩ rfl rfl rfl

/-- C10: `update_source_status` frame conditions — a success update leaves
`fail_count`, `priority` and the URL of the matched row unchanged, a failure
update leaves `success_count`, `avg_response_time`, `priority` and the URL
unchanged, and rows whose `(channel_id, url)` pair differs are untouched by
either update. -/
theorem update_source_status_frame (db : List ChannelSource) (ch url : String)
    (rt now : Rat) (i : Nat) (r : ChannelSource)
    (hr : db[i]? = some r) (hc : r.channel_id = ch) (hu : r.url = url) :
    ((update_source_status db ch url true rt now)[i]?.map ChannelSource.fail_count
        = some r.fail_count) ∧
    ((update_source_status db ch url true rt now)[i]?.map ChannelSource.priority
        = some r.priority) ∧
    ((update_source_status db ch url true rt now)[i]?.map ChannelSource.url
        = some r.url) ∧
    ((update_source_status db ch url false rt now)[i]?.map ChannelSource.success_count
        = some r.success_count) ∧
    ((update_source_status db ch url false rt now)[i]?.map ChannelSource.avg_response_time
        = some r.avg_response_time) ∧
    ((update_source_status db ch url false rt now)[i]?.map ChannelSource.priority
        = some r.priority) ∧
    ((update_source_status db ch url false rt now)[i]?.map ChannelSource.url
        = some r.url) ∧
    (∀ (b : Bool) (j : Nat) (s : ChannelSource), db[j]? = some s →
      ¬ (s.channel_id = ch ∧ s.url = url) →
      (update_source_status db ch url b rt now)[j]? = some s) := by
  refine ⟨?_, ?_, ?_, ?_, ?_, ?_, ?_, ?frame⟩
  case frame =>
    intro b j s hs hne
    simp only [update_source_status, List.getElem?_map, hs, Option.map_some']
    rw [if_neg hne]
  all_goals simp [update_source_status, List.getElem?_map, hr, hc, hu]

/-- C10 witness: a failure update on a two-row table touches only the
matched row and leaves its `success_count`, `avg_response_time`, `priority`
and URL alone. -/
theorem update_source_status_frame_witness :
    ((update_source_status [⟨"x", "u1", 1, true, 0, 2, 4, 3⟩, ⟨"x", "u2", 2, true, 0, 0, 0, 0⟩]
        "x" "u1" false 9 7)[0]?.map ChannelSource.success_count = some 2) ∧
    ((update_source_status [⟨"x", "u1", 1, true, 0, 2, 4, 3⟩, ⟨"x", "u2", 2, true, 0, 0, 0, 0⟩]
        "x" "u1" false 9 7)[0]?.map ChannelSource.avg_response_time = some 3) ∧
    ((update_source_status [⟨"x", "u1", 1, true, 0, 2, 4, 3⟩, ⟨"x", "u2", 2, true, 0, 0, 0, 0⟩]
        "x" "u1" false 9 7)[1]? = some ⟨"x", "u2", 2, true, 0, 0, 0, 0⟩) := by
  have h := update_source_status_frame
    [⟨"x", "u1", 1, true, 0, 2, 4, 3⟩, ⟨"x", "u2", 2, true, 0, 0, 0, 0⟩]
    "x" "u1" 9 7 0 ⟨"x", "u1", 1, true, 0, 2, 4, 3⟩ rfl rfl rfl
  exact ⟨h.2.2.2.1, h.2.2.2.2.1, h.2.2.2.2.2.2.2 false 1 ⟨"x", "u2", 2, true, 0, 0, 0, 0⟩
    rfl (by decide)⟩

/-- C6: a cache entry is valid exactly when the file exists, its age
`now − mtime` is at most `CACHE_TTL`, and its size is at least 1024 bytes;
and any existing entry that is too old or too small makes the pipeline fetch
fresh instead of serving the cache. -/
theorem is_cache_valid_spec (now : Rat) (stat : Option FileStat) (ce : Bool) :
    (is_cache_valid now stat = true ↔
      ∃ st, stat = some st ∧ now - st.mtime ≤ CACHE_TTL ∧ 1024 ≤ st.size) ∧
    (∀ st, stat = some st → (CACHE_TTL < now - st.mtime ∨ st.size < 1024) →
      cache_or_fetch ce now stat = .fetchFresh) := by
  constructor
  · cases stat with
    | none => simp [is_cache_valid]
    | some st =>
      simp only [is_cache_valid]
      constructor
      · intro h
        split_ifs at h with h1 h2
        exact ⟨st, rfl, not_lt.mp h1, Nat.not_lt.mp h2⟩
      · rintro ⟨st2, heq, h1, h2⟩
        obtain rfl : st2 = st := by injection heq.symm
        rw [if_neg (not_lt.mpr h1), if_neg (Nat.not_lt.mpr h2)]
  · rintro st rfl hbad
    have hv : is_cache_valid now (some st) = false := by
      simp only [is_cache_valid]
      rcases hbad with h | h
      · rw [if_pos h]
      · by_cases h1 : now - st.mtime > CACHE_TTL
        · rw [if_pos h1]
        · rw [if_neg h1, if_pos h]
    simp [cache_or_fetch, hv]

/-- C6 witness: an entry whose age is 10000 > 3600 makes the pipeline fetch
fresh. -/
theorem is_cache_valid_spec_witness :
    cache_or_fetch true 10000 (some ⟨0, 5000⟩) = .fetchFresh :=
  (is_cache_valid_spec 10000 (some ⟨0, 5000⟩) true).2 ⟨0, 5000⟩ rfl
    (Or.inl (by norm_num [CACHE_TTL]))

/-! ### Helper lemmas for `firstMin` and the source-ranking orders -/

theorem firstMin_eq_none {α : Type} (le : α → α → Prop) [DecidableRel le] :
    ∀ {l : List α}, firstMin le l = none ↔ l = [] := by
  intro l
  cases l with
  | nil => simp [firstMin]
  | cons x xs =>
    simp only [firstMin]
    rcases hfm : firstMin le xs with _ | y
    · simp
    · show (if le x y then some x else some y) = none ↔ x :: xs = []
      split_ifs <;> simp

theorem firstMin_mem {α : Type} (le : α → α → Prop) [DecidableRel le] :
    ∀ {l : List α} {m : α}, firstMin le l = some m → m ∈ l := by
  intro l
  induction l with
  | nil => intro m h; simp [firstMin] at h
  | cons x xs ih =>
    intro m h
    simp only [firstMin] at h
    rcases hfm : firstMin le xs with _ | y <;> rw [hfm] at h
    · have h2 : some x = some m := h
      simp only [Option.some.injEq] at h2
      exact h2 ▸ List.mem_cons_self x xs
    · have h2 : (if le x y then some x else some y) = some m := h
      split_ifs at h2 with hle <;> simp only [Option.some.injEq] at h2
      · exact h2 ▸ List.mem_cons_self x xs
      · exact h2 ▸ List.mem_cons_of_mem x (ih hfm)

theorem firstMin_le {α : Type} (le : α → α → Prop) [DecidableRel le]
    (htot : ∀ a b, le a b ∨ le b a)
    (htrans : ∀ a b c, le a b → le b c → le a c) :
    ∀ {l : List α} {m : α}, firstMin le l = some m → ∀ x ∈ l, le m x := by
  have hrefl : ∀ a, le a a := fun a => (htot a a).elim id id
  intro l
  induction l with
  | nil => intro m h; simp [firstMin] at h
  | cons a xs ih =>
    intro m h x hx
    simp only [firstMin] at h
    rcases hfm : firstMin le xs with _ | y <;> rw [hfm] at h
    · have hxs : xs = [] := (firstMin_eq_none le).mp hfm
      subst hxs
      have h2 : some a = some m := h
      simp only [Option.some.injEq] at h2
      subst h2
      rcases List.mem_cons.mp hx with rfl | h3
      · exact hrefl x
      · simp at h3
    · have h2 : (if le a y then some a else some y) = some m := h
      split_ifs at h2 with hle <;> simp only [Option.some.injEq] at h2 <;> rw [← h2]
      · rcases List.mem_cons.mp hx with rfl | hx2
        · exact hrefl x
        · exact htrans a y x hle (ih hfm x hx2)
      · have hya : le y a := (htot a y).resolve_left hle
        rcases List.mem_cons.mp hx with rfl | hx2
        · exact hya
        · exact ih hfm x hx2

theorem srcKeyLE_total (a b : ChannelSource) : srcKeyLE a b ∨ srcKeyLE b a := by
  unfold srcKeyLE
  rcases lt_trichotomy a.priority b.priority with h | h | h
  · exact Or.inl (Or.inl h)
  · rcases le_total a.avg_response_time b.avg_response_time with h2 | h2
    · exact Or.inl (Or.inr ⟨h, h2⟩)
    · exact Or.inr (Or.inr ⟨h.symm, h2⟩)
  · exact Or.inr (Or.inl h)

theorem srcKeyLE_trans (a b c : ChannelSource) :
    srcKeyLE a b → srcKeyLE b c → srcKeyLE a c := by
  unfold srcKeyLE
  rintro (h1 | ⟨h1, h1a⟩) (h2 | ⟨h2, h2a⟩)
  · exact Or.inl (h1.trans h2)
  · exact Or.inl (by rw [← h2]; exact h1)
  · exact Or.inl (by rw [h1]; exact h2)
  · exact Or.inr ⟨h1.trans h2, h1a.trans h2a⟩

/-- C4: `get_best_source` (i) returns, whenever the channel has an active
source, the URL of an active source of that channel that is
`(priority, avg_response_time)`-minimal among its active sources — in
particular never an inactive one; (ii) when every source of the channel is
inactive but some exists, returns the URL of a channel source of minimal
priority; (iii) returns `None` exactly when the channel has no sources at
all. -/
theorem get_best_source_spec (db : List ChannelSource) (ch : String) :
    (∀ a ∈ db, a.channel_id = ch → a.is_active = true →
      ∃ r ∈ db, r.channel_id = ch ∧ r.is_active = true ∧
        get_best_source db ch = some r.url ∧
        ∀ s ∈ db, s.channel_id = ch → s.is_active = true → srcKeyLE r s) ∧
    ((∀ a ∈ db, a.channel_id = ch → a.is_active = false) →
      ∀ a ∈ db, a.channel_id = ch →
        ∃ r ∈ db, r.channel_id = ch ∧ get_best_source db ch = some r.url ∧
          ∀ s ∈ db, s.channel_id = ch → r.priority ≤ s.priority) ∧
    (get_best_source db ch = none ↔ ∀ r ∈ db, r.channel_id ≠ ch) := by
  refine ⟨?_, ?_, ?_⟩
  · intro a ha hach hact
    have hmem : a ∈ db.filter (fun r => r.channel_id == ch && r.is_active) :=
      List.mem_filter.mpr ⟨ha, by simp [hach, hact]⟩
    rcases hfm : firstMin srcKeyLE
        (db.filter (fun r => r.channel_id == ch && r.is_active)) with _ | m
    · rw [firstMin_eq_none] at hfm
      rw [hfm] at hmem
      simp at hmem
    · have hm := List.mem_filter.mp (firstMin_mem srcKeyLE hfm)
      have hmch : m.channel_id = ch := by
        have := hm.2; simp only [Bool.and_eq_true, beq_iff_eq] at this; exact this.1
      have hmact : m.is_active = true := by
        have := hm.2; simp only [Bool.and_eq_true, beq_iff_eq] at this; exact this.2
      refine ⟨m, hm.1, hmch, hmact, ?_, ?_⟩
      · simp only [get_best_source, hfm]
      · intro s hs hsch hsact
        exact firstMin_le srcKeyLE srcKeyLE_total srcKeyLE_trans hfm s
          (List.mem_filter.mpr ⟨hs, by simp [hsch, hsact]⟩)
  · intro hall a ha hach
    have hempty : db.filter (fun r => r.channel_id == ch && r.is_active) = [] := by
      rw [List.filter_eq_nil_iff]
      intro b hb
      by_cases hbch : b.channel_id = ch
      · simp [hbch, hall b hb hbch]
      · simp [hbch]
    have hmem : a ∈ db.filter (fun r => r.channel_id == ch) :=
      List.mem_filter.mpr ⟨ha, by simp [hach]⟩
    rcases hfm : firstMin srcPrioLE (db.filter (fun r => r.channel_id == ch)) with _ | m
    · rw [firstMin_eq_none] at hfm
      rw [hfm] at hmem
      simp at hmem
    · have hm := List.mem_filter.mp (firstMin_mem srcPrioLE hfm)
      have hmch : m.channel_id = ch := by
        have := hm.2; simpa using this
      refine ⟨m, hm.1, hmch, ?_, ?_⟩
      · simp only [get_best_source, hempty, firstMin, hfm, Option.map_some']
      · intro s hs hsch
        exact firstMin_le srcPrioLE
          (fun a b => le_total a.priority b.priority)
          (fun a b c h1 h2 => le_trans h1 h2) hfm s
          (List.mem_filter.mpr ⟨hs, by simp [hsch]⟩)
  · constructor
    · intro hnone r hr hrch
      have hmem : r ∈ db.filter (fun x => x.channel_id == ch) :=
        List.mem_filter.mpr ⟨hr, by simp [hrch]⟩
      rcases hfm : firstMin srcKeyLE
          (db.filter (fun x => x.channel_id == ch && x.is_active)) with _ | m
      · rcases hfm2 : firstMin srcPrioLE (db.filter (fun x => x.channel_id == ch)) with _ | m2
        · rw [firstMin_eq_none] at hfm2
          rw [hfm2] at hmem
          simp at hmem
        · rw [get_best_source, hfm, hfm2] at hnone
          simp at hnone
      · rw [get_best_source, hfm] at hnone
        simp at hnone
    · intro hno
      have h1 : db.filter (fun r => r.channel_id == ch && r.is_active) = [] := by
        rw [List.filter_eq_nil_iff]
        intro b hb
        simp [hno b hb]
      have h2 : db.filter (fun r => r.channel_id == ch) = [] := by
        rw [List.filter_eq_nil_iff]
        intro b hb
        simp [hno b hb]
      simp [get_best_source, h1, h2, firstMin]

/-- C4 witness (the spec's end-to-end scenario): channel `x` with a
priority-1 inactive source and a priority-2 active source — the active
branch must return the priority-2 URL, as it is the only active row. -/
theorem get_best_source_spec_witness :
    ∃ r ∈ [(⟨"x", "u1", 1, false, 0, 0, 1, 0⟩ : ChannelSource),
           (⟨"x", "u2", 2, true, 0, 1, 0, 2⟩ : ChannelSource)],
      r.channel_id = "x" ∧ r.is_active = true ∧
      get_best_source
        [(⟨"x", "u1", 1, false, 0, 0, 1, 0⟩ : ChannelSource),
         (⟨"x", "u2", 2, true, 0, 1, 0, 2⟩ : ChannelSource)] "x" = some r.url ∧
      ∀ s ∈ [(⟨"x", "u1", 1, false, 0, 0, 1, 0⟩ : ChannelSource),
             (⟨"x", "u2", 2, true, 0, 1, 0, 2⟩ : ChannelSource)],
        s.channel_id = "x" → s.is_active = true → srcKeyLE r s :=
  (get_best_source_spec
    [(⟨"x", "u1", 1, false, 0, 0, 1, 0⟩ : ChannelSource),
     (⟨"x", "u2", 2, true, 0, 1, 0, 2⟩ : ChannelSource)] "x").1
    ⟨"x", "u2", 2, true, 0, 1, 0, 2⟩ (by simp) rfl rfl

/-! ### Helper lemmas for the fetch-retry loop -/

theorem fetchFrom_some_spec (net : Nat → AttemptResult) :
    ∀ (fuel start : Nat) (r : HttpResponse), fetchFrom net start fuel = some r →
      r.status = 200 ∧ ∃ i, start ≤ i ∧ i < start + fuel ∧ net i = .resp r ∧
        ∀ j, start ≤ j → j < i → ∀ q, net j = .resp q → q.status ≠ 200 := by
  intro fuel
  induction fuel with
  | zero => intro start r h; simp [fetchFrom] at h
  | succ n ih =>
    intro start r h
    rcases hnet : net start with _ | q <;> simp only [fetchFrom, hnet] at h
    · obtain ⟨h200, i, hi1, hi2, hi3, hi4⟩ := ih (start + 1) r h
      refine ⟨h200, i, by omega, by omega, hi3, ?_⟩
      intro j hj1 hj2 p hp
      rcases Nat.lt_or_ge j (start + 1) with hj | hj
      · have hj0 : j = start := by omega
        subst hj0
        rw [hnet] at hp
        cases hp
      · exact hi4 j hj hj2 p hp
    · by_cases h200 : q.status = 200
      · rw [if_pos h200] at h
        cases h
        exact ⟨h200, start, le_refl _, by omega, hnet, fun j hj1 hj2 => by omega⟩
      · rw [if_neg h200] at h
        obtain ⟨hr, i, hi1, hi2, hi3, hi4⟩ := ih (start + 1) r h
        refine ⟨hr, i, by omega, by omega, hi3, ?_⟩
        intro j hj1 hj2 p hp
        rcases Nat.lt_or_ge j (start + 1) with hj | hj
        · have hj0 : j = start := by omega
          subst hj0
          rw [hnet] at hp
          injection hp with hpq
          subst hpq
          exact h200
        · exact hi4 j hj hj2 p hp

theorem fetchFrom_none_iff (net : Nat → AttemptResult) :
    ∀ (fuel start : Nat), fetchFrom net start fuel = none ↔
      ∀ i, start ≤ i → i < start + fuel → ∀ q, net i = .resp q → q.status ≠ 200 := by
  intro fuel
  induction fuel with
  | zero =>
    intro start
    simp only [fetchFrom]
    constructor
    · intro _ i h1 h2
      exact absurd h2 (by omega)
    · intro _; trivial
  | succ n ih =>
    intro start
    rcases hnet : net start with _ | q <;> simp only [fetchFrom, hnet]
    · rw [ih (start + 1)]
      constructor
      · intro h i hi1 hi2 p hp
        rcases Nat.lt_or_ge i (start + 1) with hj | hj
        · have : i = start := by omega
          subst this
          rw [hnet] at hp
          cases hp
        · exact h i hj (by omega) p hp
      · intro h i hi1 hi2 p hp
        exact h i (by omega) (by omega) p hp
    · by_cases h200 : q.status = 200
      · rw [if_pos h200]
        constructor
        · intro h; cases h
        · intro h
          exact absurd h200 (h start (le_refl _) (by omega) q hnet)
      · rw [if_neg h200]
        rw [ih (start + 1)]
        constructor
        · intro h i hi1 hi2 p hp
          rcases Nat.lt_or_ge i (start + 1) with hj | hj
          · have : i = start := by omega
            subst this
            rw [hnet] at hp
            injection hp with hpq
            subst hpq
            exact h200
          · exact h i hj (by omega) p hp
        · intro h i hi1 hi2 p hp
          exact h i (by omega) (by omega) p hp

theorem fetchFrom_congr :
    ∀ (fuel start : Nat) (net net2 : Nat → AttemptResult),
      (∀ i, start ≤ i → i < start + fuel → net i = net2 i) →
      fetchFrom net start fuel = fetchFrom net2 start fuel := by
  intro fuel
  induction fuel with
  | zero => intro start net net2 _; rfl
  | succ n ih =>
    intro start net net2 h
    have h0 : net start = net2 start := h start (le_refl _) (by omega)
    rcases hnet : net2 start with _ | q <;>
      simp only [fetchFrom, h0, hnet] <;>
      rw [ih (start + 1) net net2 (fun i h1 h2 => h i (by omega) (by omega))]

/-- C7: the retry client returns a response only when some attempt within
the first `max_retries` yields HTTP 200 (and it returns the earliest such
response — every earlier attempt was an exception or a non-200 status, i.e.
was retried); it returns the typed failure `none` exactly when no attempt
within `max_retries` yields a 200; and its behaviour depends only on the
outcomes of attempts `0 .. max_retries - 1`, i.e. at most `max_retries`
attempts are made. -/
theorem fetch_with_retry_spec (net net2 : Nat → AttemptResult) (max_retries : Nat) :
    (∀ r, fetch_with_retry net max_retries = some r →
      r.status = 200 ∧ ∃ i, i < max_retries ∧ net i = .resp r ∧
        ∀ j < i, ∀ q, net j = .resp q → q.status ≠ 200) ∧
    (fetch_with_retry net max_retries = none ↔
      ∀ i < max_retries, ∀ q, net i = .resp q → q.status ≠ 200) ∧
    ((∀ i < max_retries, net i = net2 i) →
      fetch_with_retry net max_retries = fetch_with_retry net2 max_retries) := by
  refine ⟨?_, ?_, ?_⟩
  · intro r h
    obtain ⟨h200, i, _, hi2, hi3, hi4⟩ := fetchFrom_some_spec net max_retries 0 r h
    exact ⟨h200, i, by omega, hi3, fun j hj q hq => hi4 j (by omega) hj q hq⟩
  · rw [fetch_with_retry, fetchFrom_none_iff net max_retries 0]
    constructor
    · intro h i hi q hq
      exact h i (by omega) (by omega) q hq
    · intro h i _ hi q hq
      exact h i (by omega) q hq
  · intro h
    exact fetchFrom_congr max_retries 0 net net2 (fun i _ h2 => h i (by omega))

/-- C7 witness: with attempt 0 raising, attempt 1 returning 404 and attempt
2 returning 200, the client returns the 200 response, and it is the first
200 among the attempts. -/
theorem fetch_with_retry_spec_witness :
    (⟨200, some "video/MP2T"⟩ : HttpResponse).status = 200 ∧
    ∃ i, i < 3 ∧
      (fun i => if i = 0 then AttemptResult.exn
                else if i = 1 then AttemptResult.resp ⟨404, none⟩
                else AttemptResult.resp ⟨200, some "video/MP2T"⟩) i =
        .resp ⟨200, some "video/MP2T"⟩ ∧
      ∀ j < i, ∀ q,
        (fun i => if i = 0 then AttemptResult.exn
                  else if i = 1 then AttemptResult.resp ⟨404, none⟩
                  else AttemptResult.resp ⟨200, some "video/MP2T"⟩) j =
          .resp q → q.status ≠ 200 :=
  (fetch_with_retry_spec
    (fun i => if i = 0 then AttemptResult.exn
              else if i = 1 then AttemptResult.resp ⟨404, none⟩
              else AttemptResult.resp ⟨200, some "video/MP2T"⟩)
    (fun i => if i = 0 then AttemptResult.exn
              else if i = 1 then AttemptResult.resp ⟨404, none⟩
              else AttemptResult.resp ⟨200, some "video/MP2T"⟩) 3).1
    ⟨200, some "video/MP2T"⟩ (by decide)

/-- C8 counterexample: the source URL already carries a `token` query
parameter, yet the manifest-fetch step appends a second one
(`&token=tok`), and attaches no `Authorization` header to the manifest
fetch. -/
theorem token_injection_counterexample :
    pyContains "https://mytv.example/a.mpd?token=old" "token=" = true ∧
    mpdManifestRequest "https://mytv.example/a.mpd?token=old" "tok" =
      { url := "https://mytv.example/a.mpd?token=old&token=tok", auth := none } := by
  refine ⟨by decide, by decide⟩

/-- C8 (amended): for a URL of the requires-token (mytv) family and a
non-empty token, both fetch paths append the token to the query string —
with `?` when the URL has no query string at all, else with `&`, regardless
of whether a `token` parameter is already present; the segment fetch
additionally sends `Authorization: Bearer <token>`, while the manifest
fetch sends no Authorization header. -/
theorem token_injection_spec (u t : String) (hm : mytvMatch u = true) (ht : t ≠ "") :
    (pyContains u "?" = false →
      mpdManifestRequest u t = { url := u ++ "?token=" ++ t, auth := none } ∧
      segmentRequest u t =
        { url := u ++ "?token=" ++ t, auth := some ("Bearer " ++ t) }) ∧
    (pyContains u "?" = true →
      mpdManifestRequest u t = { url := u ++ "&token=" ++ t, auth := none } ∧
      segmentRequest u t =
        { url := u ++ "&token=" ++ t, auth := some ("Bearer " ++ t) }) := by
  constructor <;> intro hq <;>
    exact ⟨by simp [mpdManifestRequest, hm, ht, hq],
           by simp [segmentRequest, hm, ht, hq]⟩

/-- C8 witness: a query-less mytv segment URL gets `?token=` appended on
both paths and a bearer header on the segment path only. -/
theorem token_injection_spec_witness :
    mpdManifestRequest "https://mytv.example/seg.m4s" "tok" =
      { url := "https://mytv.example/seg.m4s" ++ "?token=" ++ "tok", auth := none } ∧
    segmentRequest "https://mytv.example/seg.m4s" "tok" =
      { url := "https://mytv.example/seg.m4s" ++ "?token=" ++ "tok",
        auth := some ("Bearer " ++ "tok") } :=
  (token_injection_spec "https://mytv.example/seg.m4s" "tok"
    (by decide) (by decide)).1 (by decide)

/-- C9 counterexample: `https://h/live.m3u8?a=1` has a path ending in
`.m3u8` but is dispatched to the opaque-media path (the code tests the full
URL string, not the path); and a `.ts` URL takes its content type from the
upstream header, not from the extension. -/
theorem dispatch_counterexample :
    pyEndsWith (urlPath "https://h/live.m3u8?a=1") ".m3u8" = true ∧
    dispatch "https://h/live.m3u8?a=1" none = .media "video/MP2T" ∧
    pyEndsWith (urlPath "https://h/seg.ts") ".ts" = true ∧
    dispatch "https://h/seg.ts" (some "text/html") = .media "text/html" := by
  refine ⟨by decide, by decide, by decide, by decide⟩

theorem pyEndsWith_mpd_not_m3u8 (u : String) :
    pyEndsWith u ".mpd" = true → pyEndsWith u ".m3u8" = false := by
  intro h
  by_contra hc
  simp only [Bool.not_eq_false] at hc
  rw [pyEndsWith, List.isSuffixOf_iff_suffix] at h hc
  rcases List.suffix_or_suffix_of_suffix h hc with hs | hs
  · exact absurd hs (by decide)
  · exact absurd hs (by decide)

/-- C9 (amended): the dispatcher routes to the HLS rewriter exactly when
the full source-URL string ends with `.m3u8`, to the DASH rewriter exactly
when it ends with `.mpd`, and otherwise to the opaque-media path whose
content type comes from the `.flv`/`.mp4` extension, else from the
upstream-declared content type, defaulting to MPEG-TS when absent (there is
no `.ts` extension rule). -/
theorem dispatch_spec (u : String) (hdr : Option String) :
    (dispatch u hdr = .hls ↔ pyEndsWith u ".m3u8" = true) ∧
    (dispatch u hdr = .dash ↔ pyEndsWith u ".mpd" = true) ∧
    (pyEndsWith u ".m3u8" = false → pyEndsWith u ".mpd" = false →
      dispatch u hdr = .media
        (if pyEndsWith u ".flv" = true then "video/x-flv"
         else if pyEndsWith u ".mp4" = true then "video/mp4"
         else hdr.getD "video/MP2T")) := by
  refine ⟨?_, ?_, ?_⟩
  · constructor
    · intro h
      by_contra hc
      simp only [Bool.not_eq_true] at hc
      simp only [dispatch, hc, Bool.false_eq_true, if_false] at h
      split_ifs at h
    · intro h
      simp [dispatch, h]
  · constructor
    · intro h
      by_contra hc
      simp only [Bool.not_eq_true] at hc
      by_cases h8 : pyEndsWith u ".m3u8" = true
      · simp [dispatch, h8] at h
      · simp only [Bool.not_eq_true] at h8
        simp [dispatch, h8, hc] at h
    · intro h
      have h8 := pyEndsWith_mpd_not_m3u8 u h
      simp [dispatch, h8, h]
  · intro h8 hmpd
    cases hdr <;> simp [dispatch, mediaContentType, h8, hmpd]

/-- C9 witness: an `.flv` URL goes to the opaque-media path with the
`video/x-flv` content type. -/
theorem dispatch_spec_witness :
    dispatch "https://h/seg.flv" none =
      .media (if pyEndsWith "https://h/seg.flv" ".flv" = true then "video/x-flv"
              else if pyEndsWith "https://h/seg.flv" ".mp4" = true then "video/mp4"
              else (none : Option String).getD "video/MP2T") :=
  (dispatch_spec "https://h/seg.flv" none).2.2 (by decide) (by decide)

/-! ### Helper lemmas for the DASH rewriter -/

theorem rewriteAttrs_count (ch src : String) (a : List (String × String)) :
    ((rewriteAttrs ch src a).filter (fun p => p.1 == "sourceURL")).length =
      (a.filter (fun p => p.1 == "sourceURL")).length := by
  induction a with
  | nil => rfl
  | cons p ps ih =>
    by_cases hp : p.1 = "sourceURL" <;>
      simp [rewriteAttrs, List.filter_cons, hp, ih] <;>
      simpa [rewriteAttrs] using ih

theorem rewriteAttrs_values (ch src : String) (a : List (String × String)) :
    ((rewriteAttrs ch src a).filter (fun p => p.1 == "sourceURL")).map Prod.snd =
      ((a.filter (fun p => p.1 == "sourceURL")).map Prod.snd).map
        (fun v => proxySegmentUrl ch (buildFullUrl src v)) := by
  induction a with
  | nil => rfl
  | cons p ps ih =>
    by_cases hp : p.1 = "sourceURL" <;>
      simp [rewriteAttrs, List.filter_cons, hp, ih] <;>
      simpa [rewriteAttrs] using ih

mutual
theorem countNode_rewrite (ch src : String) :
    ∀ t : XmlNode, countNode (rewriteNode ch src t) = countNode t
  | .elem tag a c => by
    simp only [rewriteNode, countNode, rewriteAttrs_count ch src a,
      countForest_rewrite ch src c]
theorem countForest_rewrite (ch src : String) :
    ∀ f : XmlForest, countForest (rewriteForest ch src f) = countForest f
  | .nil => rfl
  | .cons x xs => by
    simp only [rewriteForest, countForest, countNode_rewrite ch src x,
      countForest_rewrite ch src xs]
end

mutual
theorem valuesNode_rewrite (ch src : String) :
    ∀ t : XmlNode, valuesNode (rewriteNode ch src t) =
      (valuesNode t).map (fun v => proxySegmentUrl ch (buildFullUrl src v))
  | .elem tag a c => by
    simp only [rewriteNode, valuesNode, rewriteAttrs_values ch src a,
      valuesForest_rewrite ch src c, List.map_append]
theorem valuesForest_rewrite (ch src : String) :
    ∀ f : XmlForest, valuesForest (rewriteForest ch src f) =
      (valuesForest f).map (fun v => proxySegmentUrl ch (buildFullUrl src v))
  | .nil => rfl
  | .cons x xs => by
    simp only [rewriteForest, valuesForest, valuesNode_rewrite ch src x,
      valuesForest_rewrite ch src xs, List.map_append]
end

theorem takeWhile_no_quote :
    ∀ (v b : List Char), '"' ∉ v →
      (v ++ '"' :: b).takeWhile (· ≠ '"') = v := by
  intro v
  induction v with
  | nil =>
    intro b _
    simp [List.takeWhile_cons]
  | cons c cs ih =>
    intro b hq
    have hc : c ≠ '"' := fun h => hq (h ▸ List.mem_cons_self c cs)
    have ih2 := ih b (fun h => hq (List.mem_cons_of_mem c h))
    simp only [List.cons_append, List.takeWhile_cons]
    simp only [ne_eq, decide_not] at ih2 ⊢
    simp [hc, ih2]

theorem drop_append_cons (v : List Char) (c : Char) (b : List Char) :
    (v ++ c :: b).drop (v.length + 1) = b := by
  have h1 : v ++ c :: b = (v ++ [c]) ++ b := by simp
  have h2 : v.length + 1 = (v ++ [c]).length := by simp
  rw [h1, h2, List.drop_left]

theorem mpdFallbackAux_step (ch src : String) (c : Char) (rest b v : List Char)
    (hpre : sourceURLPat.isPrefixOf (c :: rest) = true)
    (hafter : (c :: rest).drop sourceURLPat.length = v ++ '"' :: b)
    (hv : v ≠ []) (hq : '"' ∉ v) :
    mpdFallbackAux ch src (c :: rest) =
      mpdFallbackRepl ch src v ++ mpdFallbackAux ch src b := by
  simp only [mpdFallbackAux, hpre, if_true, hafter,
    takeWhile_no_quote v b hq, List.drop_left, drop_append_cons, hv,
    ne_eq, not_false_eq_true, List.cons_ne_nil, and_self, if_pos]

theorem mpdFallbackAux_match (ch src : String) (v b : List Char)
    (hv : v ≠ []) (hq : '"' ∉ v) :
    mpdFallbackAux ch src (sourceURLPat ++ (v ++ '"' :: b)) =
      mpdFallbackRepl ch src v ++ mpdFallbackAux ch src b := by
  have hpat : sourceURLPat = 's' :: "ourceURL=\"".data := by decide
  have hpre : sourceURLPat.isPrefixOf (sourceURLPat ++ (v ++ '"' :: b)) = true :=
    List.isPrefixOf_iff_prefix.mpr (List.prefix_append _ _)
  have hafter : (sourceURLPat ++ (v ++ '"' :: b)).drop sourceURLPat.length =
      v ++ '"' :: b := List.drop_left _ _
  rw [hpat] at hpre hafter ⊢
  rw [List.cons_append] at hpre hafter ⊢
  exact mpdFallbackAux_step ch src 's' ("ourceURL=\"".data ++ (v ++ '"' :: b))
    b v hpre hafter hv hq

theorem mpdFallbackAux_skip (ch src : String) (c : Char) (rest : List Char)
    (hno : ¬ sourceURLPat.isPrefixOf (c :: rest) = true) :
    mpdFallbackAux ch src (c :: rest) = c :: mpdFallbackAux ch src rest := by
  simp only [mpdFallbackAux, hno, if_false, Bool.false_eq_true]

theorem mpdFallbackAux_decompose (ch src : String) :
    ∀ (a v b : List Char),
      (∀ i, i < a.length →
        ¬ sourceURLPat.isPrefixOf ((a ++ (sourceURLPat ++ (v ++ '"' :: b))).drop i) = true) →
      v ≠ [] → '"' ∉ v →
      mpdFallbackAux ch src (a ++ (sourceURLPat ++ (v ++ '"' :: b))) =
        a ++ (mpdFallbackRepl ch src v ++ mpdFallbackAux ch src b) := by
  intro a
  induction a with
  | nil =>
    intro v b _ hv hq
    simpa using mpdFallbackAux_match ch src v b hv hq
  | cons c rest ih =>
    intro v b hno hv hq
    rw [List.cons_append]
    rw [mpdFallbackAux_skip ch src c (rest ++ (sourceURLPat ++ (v ++ '"' :: b)))
      (by simpa using hno 0 (by simp))]
    rw [ih v b (fun i hi => by simpa using hno (i + 1) (by simpa using hi)) hv hq]
    simp

/-- C2 counterexample: a well-formed manifest whose root element itself
carries the only `sourceURL` attribute — `findall(".//*[@sourceURL]")`
visits descendants only, so the attribute is left unrewritten (and is not a
proxy segment URL). -/
theorem mpd_root_counterexample :
    countNode (XmlNode.elem "MPD" [("sourceURL", "seg1.m4s")] .nil) = 1 ∧
    proxy_mpd_rewrite "ch" "https://h/d/man.mpd"
        (XmlNode.elem "MPD" [("sourceURL", "seg1.m4s")] .nil) =
      XmlNode.elem "MPD" [("sourceURL", "seg1.m4s")] .nil ∧
    valuesNode (XmlNode.elem "MPD" [("sourceURL", "seg1.m4s")] .nil) = ["seg1.m4s"] ∧
    pyStartsWith "seg1.m4s" "/proxy/segment/" = false := by
  refine ⟨by decide, by decide, by decide, by decide⟩

/-- C2 (amended): the XML path preserves the number of `sourceURL`
attributes and rewrites every `sourceURL` attribute on elements strictly
below the root to the channel's proxy segment URL for its resolved value,
while the root element's own attributes are left unchanged; a manifest that
does not parse as XML degrades to the textual fallback, which is served
instead of failing and rewrites every match of `sourceURL="..."` — each
maximal match `sourceURL="v"` (no quote in `v`, none matching earlier) is
replaced by the match text with the stripped reference substituted by its
proxy segment URL. -/
theorem mpd_rewrite_spec (ch src : String) :
    (∀ t : XmlNode, countNode (proxy_mpd_rewrite ch src t) = countNode t) ∧
    (∀ t : XmlNode, rootAttrs (proxy_mpd_rewrite ch src t) = rootAttrs t) ∧
    (∀ t : XmlNode, valuesForest (rootChildren (proxy_mpd_rewrite ch src t)) =
      (valuesForest (rootChildren t)).map
        (fun v => proxySegmentUrl ch (buildFullUrl src v))) ∧
    (∀ raw : String, proxy_mpd_process ch src none raw =
      Sum.inr (proxy_mpd_fallback ch src raw)) ∧
    (∀ t : XmlNode, proxy_mpd_process ch src (some t) "" =
      Sum.inl (proxy_mpd_rewrite ch src t)) ∧
    (∀ (a v b : List Char),
      (∀ i, i < a.length →
        ¬ sourceURLPat.isPrefixOf ((a ++ (sourceURLPat ++ (v ++ '"' :: b))).drop i) = true) →
      v ≠ [] → '"' ∉ v →
      mpdFallbackAux ch src (a ++ (sourceURLPat ++ (v ++ '"' :: b))) =
        a ++ (mpdFallbackRepl ch src v ++ mpdFallbackAux ch src b)) := by
  refine ⟨?_, ?_, ?_, ?_, ?_, ?_⟩
  · intro t
    cases t with
    | elem tag a c =>
      simp only [proxy_mpd_rewrite, countNode, countForest_rewrite ch src c]
  · intro t
    cases t with
    | elem tag a c => rfl
  · intro t
    cases t with
    | elem tag a c =>
      simp only [proxy_mpd_rewrite, rootChildren, valuesForest_rewrite ch src c]
  · intro raw; rfl
  · intro t; rfl
  · exact mpdFallbackAux_decompose ch src

/-- C2 witness: the fallback rewrites the single `sourceURL="seg1.m4s"`
occurrence in `<x sourceURL="seg1.m4s"/>`. -/
theorem mpd_rewrite_spec_witness :
    mpdFallbackAux "ch" "https://h/d/man.mpd"
        ("<x ".data ++ (sourceURLPat ++ ("seg1.m4s".data ++ '"' :: "/>".data))) =
      "<x ".data ++ (mpdFallbackRepl "ch" "https://h/d/man.mpd" "seg1.m4s".data ++
        mpdFallbackAux "ch" "https://h/d/man.mpd" "/>".data) :=
  (mpd_rewrite_spec "ch" "https://h/d/man.mpd").2.2.2.2.2
    "<x ".data "seg1.m4s".data "/>".data (by decide) (by decide) (by decide)

end IptvPortal







